import Mathlib

/-!
Shallow embedding of the capture-trigger state machine of `DuetLapse.py`
(stuartofmt/DuetLapse, single source file `src/DuetLapse.py`).

Modelling conventions, each justified by the source:

* The script's mutable globals `zo`, `frame`, `timePriorPhoto`, `alreadyPaused`
  (lines 42-46) become the fields of `LapseState`; `printerState` is the `Nat`
  threaded through the main loop (`loopStep`).
* Wall-clock values (`time.time()`, `-seconds`) are Python floats used only via
  subtraction and order comparison; they are embedded as `ℚ`.  The Python
  truthiness test `if (seconds)` (line 323) becomes `seconds ≠ 0`.
* Printer status strings are only ever inspected with the substring tests
  `'processing' in status`, `'idle' in status`, `'paused' in status`
  (lines 394-411, 328, 334).  On the status vocabulary of the printer port
  these tests are equivalent to an exact match, so statuses are embedded as the
  enumeration `PStatus`.  Camera-mode strings are kept as real strings with a
  real substring test (`pyIn`), because the behaviour of the startup camera
  check (line 142) hinges on substring semantics.
* Every interaction with the printer or camera is recorded as an `Event`:
  `.pause` = `gCode('M25')`, `.sync` = `gCode('M400')`, `.move` = `gCode('G1 …')`,
  `.resume` = `gCode('M24')`, `.capture n ok` = the `subprocess.call` of the
  capture command for frame `n` (whose exit status `ok` the script ignores).
* One polling tick consumes a `TickInput`: the status read by the main loop
  (line 394), the layer read (line 313), the current wall clock (lines 305/321),
  the two further status reads inside `oneInterval` (lines 328 and 334), and
  the success of the external capture command.
-/

/-- Printer status as observed through the status port (`getStatus`). -/
inductive PStatus : Type
  | idle
  | processing
  | paused
  | other
deriving DecidableEq

/-- The `-detect` command-line choice (argparse restricts it to exactly
`layer`, `pause`, `none`, line 59). -/
inductive Detect : Type
  | layer
  | pause
  | dnone
deriving DecidableEq

/-- Run configuration fixed at startup (embeds the globals set by `init`):
`detect`, `seconds`, `pauseCfg` (= `'yes' in pause`), `movehead`, `dontwait`. -/
structure Config : Type where
  detect : Detect
  seconds : ℚ
  pauseCfg : Bool
  movehead : ℚ × ℚ
  dontwait : Bool
deriving DecidableEq

/-- The script's mutable globals `zo` (line 42), `frame` (line 43),
`timePriorPhoto` (line 45) and `alreadyPaused` (line 46). -/
structure LapseState : Type where
  zo : Int
  frame : Nat
  timePriorPhoto : ℚ
  alreadyPaused : Bool
deriving DecidableEq

/-- Initial global state: `zo = -1`, `frame = 0`, `alreadyPaused = False`;
`timePriorPhoto` is set to the wall clock just before the loop (line 377). -/
def initState (t0 : ℚ) : LapseState :=
  { zo := -1, frame := 0, timePriorPhoto := t0, alreadyPaused := false }

/-- Externally visible commands and calls issued during a tick. -/
inductive Event : Type
  | pause
  | sync
  | move
  | capture (n : Nat) (ok : Bool)
  | resume
deriving DecidableEq

/-- Environment values consumed by one iteration of the polling loop. -/
structure TickInput : Type where
  status : PStatus
  layer : Int
  now : ℚ
  status2 : PStatus
  status3 : PStatus
  capOk : Bool
deriving DecidableEq

/-- Lines 254-267.  `checkForcePause`: return immediately if `alreadyPaused`
or `-pause yes` is not in force; otherwise issue `M25`, `M400`, set
`alreadyPaused = True`, and if a `-movehead` target is configured issue the
move followed by another `M400`. -/
def checkForcePause (cfg : Config) (s : LapseState) : LapseState × List Event :=
  if s.alreadyPaused then (s, [])
  else if !cfg.pauseCfg then (s, [])
  else
    let s1 := { s with alreadyPaused := true }
    if cfg.movehead ≠ (0, 0) then
      (s1, [Event.pause, Event.sync, Event.move, Event.sync])
    else
      (s1, [Event.pause, Event.sync])

/-- Lines 269-273.  `unPause`: issue `M24` iff `alreadyPaused` (the flag is
not modified). -/
def unPause (s : LapseState) : List Event :=
  if s.alreadyPaused then [Event.resume] else []

/-- Lines 275-305.  `onePhoto`: increment `frame`, invoke the external capture
command for the new frame number (its exit status is ignored), and record the
wall clock in `timePriorPhoto`. -/
def onePhoto (s : LapseState) (now : ℚ) (ok : Bool) : LapseState × List Event :=
  ({ s with frame := s.frame + 1, timePriorPhoto := now },
   [Event.capture (s.frame + 1) ok])

/-- Lines 311-319.  The layer branch of `oneInterval`: when `-detect layer`,
read the layer; if it differs from `zo`, run `checkForcePause` and `onePhoto`;
in either case store the reading into `zo`. -/
def layerStep (cfg : Config) (s : LapseState) (inp : TickInput) :
    LapseState × List Event :=
  if cfg.detect = Detect.layer then
    if inp.layer ≠ s.zo then
      let p1 := checkForcePause cfg s
      let p2 := onePhoto p1.1 inp.now inp.capOk
      ({ p2.1 with zo := inp.layer }, p1.2 ++ p2.2)
    else
      ({ s with zo := inp.layer }, [])
  else (s, [])

/-- Lines 320-326.  The seconds branch of `oneInterval`: with
`elap = now - timePriorPhoto`, fire iff `seconds` is truthy (≠ 0) and
`seconds < elap` (strict). -/
def intervalStep (cfg : Config) (s : LapseState) (inp : TickInput) :
    LapseState × List Event :=
  if cfg.seconds ≠ 0 ∧ cfg.seconds < inp.now - s.timePriorPhoto then
    let p1 := checkForcePause cfg s
    let p2 := onePhoto p1.1 inp.now inp.capOk
    (p2.1, p1.2 ++ p2.2)
  else (s, [])

/-- Lines 328-332.  The pause-detect branch of `oneInterval`: when
`-detect pause`, the fresh status read reports paused and `alreadyPaused` is
false, set `alreadyPaused = True`, capture, then call `unPause`. -/
def pauseDetectStep (cfg : Config) (s : LapseState) (inp : TickInput) :
    LapseState × List Event :=
  if cfg.detect = Detect.pause ∧ inp.status2 = PStatus.paused ∧
      s.alreadyPaused = false then
    let s1 := { s with alreadyPaused := true }
    let p2 := onePhoto s1 inp.now inp.capOk
    (p2.1, p2.2 ++ unPause p2.1)
  else (s, [])

/-- Lines 334-335.  Clear `alreadyPaused` when a fresh status read no longer
reports paused. -/
def clearPausedStep (s : LapseState) (inp : TickInput) : LapseState :=
  if s.alreadyPaused = true ∧ inp.status3 ≠ PStatus.paused then
    { s with alreadyPaused := false }
  else s

/-- Lines 308-335.  `oneInterval`: the four blocks in source order. -/
def oneInterval (cfg : Config) (s : LapseState) (inp : TickInput) :
    LapseState × List Event :=
  let p1 := layerStep cfg s inp
  let p2 := intervalStep cfg p1.1 inp
  let p3 := pauseDetectStep cfg p2.1 inp
  (clearPausedStep p3.1 inp, p1.2 ++ p2.2 ++ p3.2)

/-- Result of dispatching one main-loop iteration on `printerState`. -/
inductive StepResult : Type
  | cont (ps : Nat) (s : LapseState) (evs : List Event)
  | finish (frameCount : Nat)
deriving DecidableEq

/-- Lines 392-412.  One iteration of the main loop after the sleep and the
status read: dispatch on `printerState` (0 = idle before print, 1 = printing,
2 = idle after print).  State 2 calls `postProcess`, which assembles the video
and exits; an unrecognised state falls through the `elif` chain unchanged. -/
def loopStep (cfg : Config) (ps : Nat) (s : LapseState) (inp : TickInput) :
    StepResult :=
  if ps = 0 then
    StepResult.cont (if inp.status = PStatus.processing then 1 else 0)
      (if cfg.dontwait then (oneInterval cfg s inp).1 else s)
      (if cfg.dontwait then (oneInterval cfg s inp).2 else [])
  else if ps = 1 then
    StepResult.cont (if inp.status = PStatus.idle then 2 else 1)
      (oneInterval cfg s inp).1 (oneInterval cfg s inp).2
  else if ps = 2 then
    StepResult.finish s.frame
  else
    StepResult.cont ps s []

/-- Lifecycle phase of a step result (`finish` happens in, and stays at,
state 2). -/
def phaseOf : StepResult → Nat
  | StepResult.cont ps _ _ => ps
  | StepResult.finish _ => 2

/-- What one iteration of the `while` loop can consume: a normal tick whose
printer and camera calls all succeed, a SIGINT/KeyboardInterrupt delivered at
the iteration boundary (lines 383-389 and 413-415: both handlers run
`postProcess`, which ends in `exit()`, exit code 0), or an iteration in which
a printer call raises.  Only `KeyboardInterrupt` is caught by the
`try/except` (line 413), so a printer exception propagates and the process
dies without `postProcess`. -/
inductive TickEvt : Type
  | tick (inp : TickInput)
  | sigint
  | fail
deriving DecidableEq

/-- Terminal or intermediate outcome of running the loop on a list of
iteration events. -/
inductive RunOutcome : Type
  | running (ps : Nat) (s : LapseState)
  | assembled (frameCount : Nat) (exitCode : Nat)
  | crashed (frameCount : Nat)
deriving DecidableEq

/-- Outcome of the main loop (lines 391-416) on a sequence of iteration
events.  `postProcess` (lines 338-358) assembles the video over the `frame`
frames captured so far and exits with code 0. -/
def runOut (cfg : Config) (ps : Nat) (s : LapseState) :
    List TickEvt → RunOutcome
  | [] => RunOutcome.running ps s
  | TickEvt.sigint :: _ => RunOutcome.assembled s.frame 0
  | TickEvt.fail :: _ => RunOutcome.crashed s.frame
  | TickEvt.tick inp :: rest =>
    match loopStep cfg ps s inp with
    | StepResult.finish n => RunOutcome.assembled n 0
    | StepResult.cont ps1 s1 _ => runOut cfg ps1 s1 rest

/-- Events issued by the main loop on a sequence of iteration events. -/
def runTrace (cfg : Config) (ps : Nat) (s : LapseState) :
    List TickEvt → List Event
  | [] => []
  | TickEvt.sigint :: _ => []
  | TickEvt.fail :: _ => []
  | TickEvt.tick inp :: rest =>
    match loopStep cfg ps s inp with
    | StepResult.finish _ => []
    | StepResult.cont ps1 s1 e1 => e1 ++ runTrace cfg ps1 s1 rest

/-- Iterating `oneInterval` over a list of tick inputs (the trigger evaluator
as exercised while `printerState = 1`). -/
def evalRun (cfg : Config) (s : LapseState) :
    List TickInput → LapseState × List Event
  | [] => (s, [])
  | inp :: rest =>
    let p1 := oneInterval cfg s inp
    let p2 := evalRun cfg p1.1 rest
    (p2.1, p1.2 ++ p2.2)

/-- Substring test on character lists (the semantics of Python's
`needle in hay` for strings). -/
def listContainsSub (needle : List Char) : List Char → Bool
  | [] => needle.isEmpty
  | c :: rest => needle.isPrefixOf (c :: rest) || listContainsSub needle rest

/-- Python's `needle in hay` on strings. -/
def pyIn (needle hay : String) : Bool := listContainsSub needle.data hay.data

/-- Line 57: the camera modes accepted by argparse (`choices=[...]`). -/
def cameraChoices : List String := ["usb", "pi", "ffmpeg", "web", "dslr"]

/-- Lines 142-144: `init` exits with code 2 iff `'dlsr' in camera`
(note the transposed spelling in the source test). -/
def initCameraExit2 (camera : String) : Bool := pyIn "dlsr" camera

/-- Lines 151-153: `init` exits with code 2 when a `-movehead` target is given
without `-pause yes` and without `-detect pause`. -/
def invalidMoveheadCombo (movehead : ℚ × ℚ) (pauseArg detectArg : String) :
    Bool :=
  decide (movehead ≠ (0, 0)) && !pyIn "yes" pauseArg && !pyIn "pause" detectArg

/-- Lines 155-159: `init` exits with code 2 when `-pause yes` is combined with
`-detect pause`. -/
def invalidPauseDetectCombo (pauseArg detectArg : String) : Bool :=
  pyIn "yes" pauseArg && pyIn "pause" detectArg

/-- Lines 281-301: `onePhoto` assigns its capture command `cmd` only inside
the four `if` branches, so `cmd` is defined (and `subprocess.call` reachable)
iff the camera string passes one of the four substring tests. -/
def onePhotoCmdDefined (camera : String) : Bool :=
  pyIn "usb" camera || pyIn "pi" camera || pyIn "ffmpeg" camera ||
    pyIn "web" camera

/-- Frame numbers of the capture events in a trace, in order. -/
def captureFrames : List Event → List Nat
  | [] => []
  | Event.capture n _ :: rest => n :: captureFrames rest
  | _ :: rest => captureFrames rest

/-- Number of capture events in a trace. -/
def countCaptures (tr : List Event) : Nat := (captureFrames tr).length

/-- Number of resume (`M24`) events in a trace. -/
def countResumes : List Event → Nat
  | [] => 0
  | Event.resume :: rest => countResumes rest + 1
  | _ :: rest => countResumes rest

/-- The list `[a, a+1, …, a+k-1]`. -/
def natRange (a : Nat) : Nat → List Nat
  | 0 => []
  | k + 1 => a :: natRange (a + 1) k

/-- Decimal digit to its character, as produced by decimal formatting. -/
def digitChar : Nat → Char
  | 0 => '0'
  | 1 => '1'
  | 2 => '2'
  | 3 => '3'
  | 4 => '4'
  | 5 => '5'
  | 6 => '6'
  | 7 => '7'
  | 8 => '8'
  | 9 => '9'
  | _ => '*'

/-- Decimal digits, most significant first, by structural recursion on a fuel
bound (any fuel above the number itself gives the digits; see
`natDigits_eq`). -/
def natDigitsAux : Nat → Nat → List Nat
  | 0, _ => []
  | fuel + 1, n =>
    if n < 10 then [n] else natDigitsAux fuel (n / 10) ++ [n % 10]

/-- Decimal digits of a natural number, most significant first. -/
def natDigits (n : Nat) : List Nat := natDigitsAux (n + 1) n

/-- Value of a most-significant-first digit list. -/
def digitsVal : List Nat → Nat
  | [] => 0
  | d :: rest => d * 10 ^ rest.length + digitsVal rest

/-- Line 278: Python's `"{0:08d}".format(frame)` — the decimal digits padded
on the left with `'0'` to a minimum width of 8 (wider numbers keep all their
digits). -/
def pad8 (n : Nat) : List Nat :=
  List.replicate (8 - (natDigits n).length) 0 ++ natDigits n

/-- Lines 278-279: the image slot filename
`'/tmp/DuetLapse/IMG' + "{0:08d}".format(frame) + '.jpeg'`. -/
def fileName (n : Nat) : String :=
  ⟨"/tmp/DuetLapse/IMG".data ++ (pad8 n).map digitChar ++ ".jpeg".data⟩

/-- Frame bookkeeping of a state transition: the new frame counter advanced
by the number of captures, and the captured slot numbers are consecutive
starting right above the old counter. -/
def FramesOk (s : LapseState) (p : LapseState × List Event) : Prop :=
  ∃ k, p.1.frame = s.frame + k ∧ captureFrames p.2 = natRange (s.frame + 1) k

/-- Whether a run outcome includes a `postProcess` video assembly. -/
def assembleInvoked : RunOutcome → Bool
  | RunOutcome.assembled _ _ => true
  | _ => false

/-- Configuration `-detect layer` with the interval trigger disabled and no
forced pause. -/
def cfgLayer : Config :=
  { detect := Detect.layer, seconds := 0, pauseCfg := false,
    movehead := (0, 0), dontwait := false }

/-- A tick input that only varies the layer reading (printer processing,
capture succeeding, wall clock 0). -/
def mkLayerInput (z : Int) : TickInput :=
  { status := PStatus.processing, layer := z, now := 0,
    status2 := PStatus.processing, status3 := PStatus.processing,
    capOk := true }

/-- Configuration `-pause yes -detect layer` with no `-movehead` target. -/
def cfgForce : Config :=
  { detect := Detect.layer, seconds := 0, pauseCfg := true,
    movehead := (0, 0), dontwait := false }

/-- A tick during a print whose layer reading changed to 1 and whose fresh
status reads report paused (as they do once `M25` has taken effect). -/
def inpForce : TickInput :=
  { status := PStatus.processing, layer := 1, now := 0,
    status2 := PStatus.paused, status3 := PStatus.paused, capOk := true }

/-- Configuration `-detect none -seconds 5`. -/
def cfgInt : Config :=
  { detect := Detect.dnone, seconds := 5, pauseCfg := false,
    movehead := (0, 0), dontwait := false }

/-- A tick at wall clock 6 while processing. -/
def inpInt : TickInput :=
  { status := PStatus.processing, layer := 0, now := 6,
    status2 := PStatus.processing, status3 := PStatus.processing,
    capOk := true }

/-- A tick at wall clock 5 while processing. -/
def inpInt5 : TickInput :=
  { status := PStatus.processing, layer := 0, now := 5,
    status2 := PStatus.processing, status3 := PStatus.processing,
    capOk := true }

/-- Configuration `-detect pause` (startup validation rejects combining it
with `-pause yes`, lines 155-159), with the interval trigger disabled. -/
def cfgPauseDetect : Config :=
  { detect := Detect.pause, seconds := 0, pauseCfg := false,
    movehead := (0, 0), dontwait := false }

/-- A tick whose two in-`oneInterval` status reads both report paused. -/
abbrev pausedTick (i : TickInput) : Prop :=
  i.status2 = PStatus.paused ∧ i.status3 = PStatus.paused

/-- A paused tick (both fresh status reads report paused). -/
def inpPaused : TickInput :=
  { status := PStatus.processing, layer := 0, now := 0,
    status2 := PStatus.paused, status3 := PStatus.paused, capOk := true }

/-- A tick whose fresh status reads no longer report paused. -/
def inpUnpaused : TickInput :=
  { status := PStatus.processing, layer := 0, now := 0,
    status2 := PStatus.processing, status3 := PStatus.processing,
    capOk := true }

/-- Configuration `-detect none` with no triggers, used to drive the
lifecycle alone. -/
def cfg9 : Config :=
  { detect := Detect.dnone, seconds := 0, pauseCfg := false,
    movehead := (0, 0), dontwait := false }

/-- A processing tick with no trigger activity. -/
def inp9 : TickInput :=
  { status := PStatus.processing, layer := 0, now := 0,
    status2 := PStatus.processing, status3 := PStatus.processing,
    capOk := true }

/-- Per-tick firing flags of the layer trigger, over a sequence of layer
readings fed through `oneInterval` with `cfgLayer`. -/
def layerFireFlags (cfg : Config) (s : LapseState) : List Int → List Bool
  | [] => []
  | z :: zs =>
    (!(oneInterval cfg s (mkLayerInput z)).2.isEmpty) ::
      layerFireFlags cfg (oneInterval cfg s (mkLayerInput z)).1 zs

/-- Modelled from the spec's words (amended by `c3_first_reading_refuted`):
a tick fires iff its reading differs from the immediately preceding reading,
the preceding value of the first tick being the sentinel `-1` used for the
unset initial `zo`. -/
def specLayerFires (z0 : Int) : List Int → List Bool
  | [] => []
  | z :: zs => decide (z ≠ z0) :: specLayerFires z zs

/-- The last element of a list, or the given default when it is empty. -/
def lastOr (a : Int) : List Int → Int
  | [] => a
  | z :: zs => lastOr z zs

theorem natDigitsAux_irrel :
    ∀ f1 f2 n : Nat, n < f1 → n < f2 →
      natDigitsAux f1 n = natDigitsAux f2 n := by
  intro f1
  induction f1 with
  | zero => intro f2 n h1 _; omega
  | succ f1 ih =>
    intro f2 n h1 h2
    cases f2 with
    | zero => omega
    | succ f2 =>
      show (if n < 10 then [n] else natDigitsAux f1 (n / 10) ++ [n % 10]) =
        (if n < 10 then [n] else natDigitsAux f2 (n / 10) ++ [n % 10])
      split_ifs with h10
      · rfl
      · have hdiv : n / 10 < n := Nat.div_lt_self (by omega) (by omega)
        rw [ih f2 (n / 10) (by omega) (by omega)]

/-- Unfolding equation of `natDigits`. -/
theorem natDigits_eq (n : Nat) :
    natDigits n = if n < 10 then [n] else natDigits (n / 10) ++ [n % 10] := by
  show (if n < 10 then [n] else natDigitsAux n (n / 10) ++ [n % 10]) = _
  split_ifs with h10
  · rfl
  · have hdiv : n / 10 < n := Nat.div_lt_self (by omega) (by omega)
    rw [natDigitsAux_irrel n (n / 10 + 1) (n / 10) (by omega) (by omega)]
    rfl

theorem digitsVal_append_single (l : List Nat) (d : Nat) :
    digitsVal (l ++ [d]) = 10 * digitsVal l + d := by
  induction l with
  | nil => simp [digitsVal]
  | cons a t ih =>
    have h1 : digitsVal ((a :: t) ++ [d]) =
        a * 10 ^ (t ++ [d]).length + digitsVal (t ++ [d]) := rfl
    have h2 : (t ++ [d]).length = t.length + 1 := by simp
    have h3 : digitsVal (a :: t) = a * 10 ^ t.length + digitsVal t := rfl
    rw [h1, h2, ih, h3, pow_succ]
    ring

theorem digitsVal_natDigits (n : Nat) : digitsVal (natDigits n) = n := by
  induction n using Nat.strong_induction_on with
  | _ n ih =>
    rw [natDigits_eq]
    split
    · simp [digitsVal]
    · rw [digitsVal_append_single,
        ih (n / 10) (Nat.div_lt_self (by omega) (by omega))]
      omega

theorem natDigits_length_le :
    ∀ k n : Nat, n < 10 ^ k → 1 ≤ k → (natDigits n).length ≤ k := by
  intro k
  induction k with
  | zero => intro n _ hk; omega
  | succ k ih =>
    intro n hn _
    rw [natDigits_eq]
    split
    · simp
    · rename_i hbig
      have hd : n / 10 < 10 ^ k := by
        have hp : 10 ^ (k + 1) = 10 ^ k * 10 := pow_succ 10 k
        exact (Nat.div_lt_iff_lt_mul (by omega)).2 (by omega)
      have hk1 : 1 ≤ k := by
        by_contra hk0
        have hkz : k = 0 := by omega
        subst hkz
        simp only [pow_zero, Nat.lt_one_iff] at hd
        omega
      have hlen := ih (n / 10) hd hk1
      simp only [List.length_append, List.length_cons, List.length_nil]
      omega

theorem natDigits_lt_ten (n : Nat) : ∀ d ∈ natDigits n, d < 10 := by
  induction n using Nat.strong_induction_on with
  | _ n ih =>
    rw [natDigits_eq]
    split
    · intro d hd
      simp only [List.mem_singleton] at hd
      omega
    · intro d hd
      simp only [List.mem_append, List.mem_singleton] at hd
      rcases hd with h1 | h2
      · exact ih (n / 10) (Nat.div_lt_self (by omega) (by omega)) d h1
      · omega

theorem digitsVal_lt (l : List Nat) (h : ∀ d ∈ l, d < 10) :
    digitsVal l < 10 ^ l.length := by
  induction l with
  | nil => simp [digitsVal]
  | cons a t ih =>
    have ha : a < 10 := h a (by simp)
    have ht := ih (fun d hd => h d (by simp [hd]))
    simp only [digitsVal, List.length_cons, pow_succ]
    nlinarith [pow_pos (by omega : (0:Nat) < 10) t.length]

theorem digitsVal_replicate_zero (j : Nat) (l : List Nat) :
    digitsVal (List.replicate j 0 ++ l) = digitsVal l := by
  induction j with
  | zero => simp
  | succ j ih =>
    have h1 : List.replicate (j + 1) 0 ++ l = 0 :: (List.replicate j 0 ++ l) :=
      rfl
    have h2 : digitsVal (0 :: (List.replicate j 0 ++ l)) =
        0 * 10 ^ (List.replicate j 0 ++ l).length +
          digitsVal (List.replicate j 0 ++ l) := rfl
    rw [h1, h2, ih]
    omega

theorem pad8_length (n : Nat) (h : n < 10 ^ 8) : (pad8 n).length = 8 := by
  have hle := natDigits_length_le 8 n h (by omega)
  simp only [pad8, List.length_append, List.length_replicate]
  omega

theorem pad8_val (n : Nat) : digitsVal (pad8 n) = n := by
  rw [pad8, digitsVal_replicate_zero, digitsVal_natDigits]

theorem pad8_lt_ten (n : Nat) : ∀ d ∈ pad8 n, d < 10 := by
  intro d hd
  rw [pad8] at hd
  simp only [List.mem_append, List.mem_replicate] at hd
  rcases hd with h1 | h2
  · omega
  · exact natDigits_lt_ten n d h2

theorem digitChar_lt_iff :
    ∀ d, d < 10 → ∀ e, e < 10 → (digitChar d < digitChar e ↔ d < e) := by
  decide

theorem digitChar_inj :
    ∀ d, d < 10 → ∀ e, e < 10 → digitChar d = digitChar e → d = e := by
  decide

theorem lex_cons_cons_iff {c₁ c₂ : Char} {L₁ L₂ : List Char} :
    List.Lex (· < ·) (c₁ :: L₁) (c₂ :: L₂) ↔
      c₁ < c₂ ∨ (c₁ = c₂ ∧ List.Lex (· < ·) L₁ L₂) := by
  constructor
  · intro h
    cases h with
    | cons h1 => exact Or.inr ⟨rfl, h1⟩
    | rel h1 => exact Or.inl h1
  · intro h
    rcases h with h1 | ⟨rfl, h1⟩
    · exact List.Lex.rel h1
    · exact List.Lex.cons h1

theorem lex_digits (A : List Nat) :
    ∀ B : List Nat, A.length = B.length → (∀ d ∈ A, d < 10) →
      (∀ d ∈ B, d < 10) →
      (List.Lex (· < ·) (A.map digitChar) (B.map digitChar) ↔
        digitsVal A < digitsVal B) := by
  induction A with
  | nil =>
    intro B hlen _ _
    cases B with
    | nil => simp [digitsVal]
    | cons b t => simp at hlen
  | cons a ta ih =>
    intro B hlen hA hB
    cases B with
    | nil => simp at hlen
    | cons b tb =>
      have hlen' : ta.length = tb.length := by simpa using hlen
      have ha : a < 10 := hA a (by simp)
      have hb : b < 10 := hB b (by simp)
      have hta : ∀ d ∈ ta, d < 10 := fun d hd => hA d (by simp [hd])
      have htb : ∀ d ∈ tb, d < 10 := fun d hd => hB d (by simp [hd])
      have hvta : digitsVal ta < 10 ^ tb.length := by
        rw [← hlen']
        exact digitsVal_lt ta hta
      have hvtb : digitsVal tb < 10 ^ tb.length := digitsVal_lt tb htb
      simp only [List.map_cons, digitsVal, hlen', lex_cons_cons_iff]
      constructor
      · intro h
        rcases h with hlt | ⟨heq, htail⟩
        · have hab : a < b := (digitChar_lt_iff a ha b hb).1 hlt
          calc a * 10 ^ tb.length + digitsVal ta
              < a * 10 ^ tb.length + 10 ^ tb.length := by omega
            _ = (a + 1) * 10 ^ tb.length := by ring
            _ ≤ b * 10 ^ tb.length :=
                Nat.mul_le_mul_right (10 ^ tb.length) (by omega)
            _ ≤ b * 10 ^ tb.length + digitsVal tb := Nat.le_add_right _ _
        · have hab : a = b := digitChar_inj a ha b hb heq
          have hv := (ih tb hlen' hta htb).1 htail
          subst hab
          omega
      · intro hv
        rcases Nat.lt_trichotomy a b with hab | hab | hab
        · exact Or.inl ((digitChar_lt_iff a ha b hb).2 hab)
        · subst hab
          exact Or.inr ⟨rfl, (ih tb hlen' hta htb).2 (by omega)⟩
        · exfalso
          have hcon : b * 10 ^ tb.length + digitsVal tb
              < a * 10 ^ tb.length + digitsVal ta := by
            calc b * 10 ^ tb.length + digitsVal tb
                < b * 10 ^ tb.length + 10 ^ tb.length := by omega
              _ = (b + 1) * 10 ^ tb.length := by ring
              _ ≤ a * 10 ^ tb.length :=
                  Nat.mul_le_mul_right (10 ^ tb.length) (by omega)
              _ ≤ a * 10 ^ tb.length + digitsVal ta := Nat.le_add_right _ _
          omega

theorem lex_append_of_lex :
    ∀ (A B u v : List Char), A.length = B.length →
      List.Lex (· < ·) A B → List.Lex (· < ·) (A ++ u) (B ++ v) := by
  intro A B u v hlen h
  revert hlen
  induction h with
  | nil => intro hlen; simp at hlen
  | cons h1 ih =>
    intro hlen
    exact List.Lex.cons (ih (by simpa using hlen))
  | rel h1 => intro _; exact List.Lex.rel h1

theorem captureFrames_append (a b : List Event) :
    captureFrames (a ++ b) = captureFrames a ++ captureFrames b := by
  induction a with
  | nil => rfl
  | cons e t ih => cases e <;> simp [captureFrames, ih]

theorem natRange_length (k : Nat) : ∀ a, (natRange a k).length = k := by
  induction k with
  | zero => intro a; rfl
  | succ k ih => intro a; simp [natRange, ih]

theorem natRange_append (m : Nat) :
    ∀ a n, natRange a m ++ natRange (a + m) n = natRange a (m + n) := by
  induction m with
  | zero => intro a n; simp [natRange]
  | succ m ih =>
    intro a n
    have hs2 : m + 1 + n = (m + n) + 1 := by omega
    rw [hs2]
    show a :: natRange (a + 1) m ++ natRange (a + (m + 1)) n =
      a :: natRange (a + 1) (m + n)
    rw [show a + (m + 1) = (a + 1) + m by omega, List.cons_append,
      ih (a + 1) n]

theorem natRange_mem_le (k : Nat) : ∀ a x, x ∈ natRange a k → a ≤ x := by
  induction k with
  | zero => intro a x hx; simp [natRange] at hx
  | succ k ih =>
    intro a x hx
    simp only [natRange, List.mem_cons] at hx
    rcases hx with rfl | hx
    · omega
    · have := ih (a + 1) x hx
      omega

theorem natRange_pairwise (k : Nat) : ∀ a, (natRange a k).Pairwise (· < ·) := by
  induction k with
  | zero => intro a; exact List.Pairwise.nil
  | succ k ih =>
    intro a
    refine List.Pairwise.cons ?_ (ih (a + 1))
    intro x hx
    have := natRange_mem_le k (a + 1) x hx
    omega

theorem checkForcePause_frame (cfg : Config) (s : LapseState) :
    (checkForcePause cfg s).1.frame = s.frame := by
  simp only [checkForcePause]
  split_ifs <;> rfl

theorem checkForcePause_capturesNil (cfg : Config) (s : LapseState) :
    captureFrames (checkForcePause cfg s).2 = [] := by
  simp only [checkForcePause]
  split_ifs <;> rfl

theorem captureFrames_unPause (s : LapseState) :
    captureFrames (unPause s) = [] := by
  simp only [unPause]
  split_ifs <;> rfl

theorem framesOk_comp {s : LapseState} {p q : LapseState × List Event}
    (h1 : FramesOk s p) (h2 : FramesOk p.1 q) :
    FramesOk s (q.1, p.2 ++ q.2) := by
  obtain ⟨k1, hf1, hc1⟩ := h1
  obtain ⟨k2, hf2, hc2⟩ := h2
  refine ⟨k1 + k2, ?_, ?_⟩
  · show q.1.frame = s.frame + (k1 + k2)
    omega
  · show captureFrames (p.2 ++ q.2) = _
    rw [captureFrames_append, hc1, hc2, hf1,
      show s.frame + k1 + 1 = (s.frame + 1) + k1 by omega]
    exact natRange_append k1 (s.frame + 1) k2

theorem framesOk_layerStep (cfg : Config) (s : LapseState) (inp : TickInput) :
    FramesOk s (layerStep cfg s inp) := by
  simp only [layerStep]
  split_ifs with h1 h2
  · refine ⟨1, ?_, ?_⟩
    · show (checkForcePause cfg s).1.frame + 1 = s.frame + 1
      rw [checkForcePause_frame]
    · show captureFrames ((checkForcePause cfg s).2 ++
        [Event.capture ((checkForcePause cfg s).1.frame + 1) inp.capOk]) = _
      rw [captureFrames_append, checkForcePause_capturesNil,
        checkForcePause_frame]
      rfl
  · exact ⟨0, rfl, rfl⟩
  · exact ⟨0, rfl, rfl⟩

theorem framesOk_intervalStep (cfg : Config) (s : LapseState)
    (inp : TickInput) : FramesOk s (intervalStep cfg s inp) := by
  simp only [intervalStep]
  split_ifs with h1
  · refine ⟨1, ?_, ?_⟩
    · show (checkForcePause cfg s).1.frame + 1 = s.frame + 1
      rw [checkForcePause_frame]
    · show captureFrames ((checkForcePause cfg s).2 ++
        [Event.capture ((checkForcePause cfg s).1.frame + 1) inp.capOk]) = _
      rw [captureFrames_append, checkForcePause_capturesNil,
        checkForcePause_frame]
      rfl
  · exact ⟨0, rfl, rfl⟩

theorem framesOk_pauseDetectStep (cfg : Config) (s : LapseState)
    (inp : TickInput) : FramesOk s (pauseDetectStep cfg s inp) := by
  simp only [pauseDetectStep]
  split_ifs with h1
  · refine ⟨1, rfl, ?_⟩
    show captureFrames ([Event.capture (s.frame + 1) inp.capOk] ++ _) = _
    rw [captureFrames_append, captureFrames_unPause]
    rfl
  · exact ⟨0, rfl, rfl⟩

theorem clearPausedStep_frame (s : LapseState) (inp : TickInput) :
    (clearPausedStep s inp).frame = s.frame := by
  simp only [clearPausedStep]
  split_ifs <;> rfl

theorem framesOk_oneInterval (cfg : Config) (s : LapseState)
    (inp : TickInput) : FramesOk s (oneInterval cfg s inp) := by
  have h1 := framesOk_layerStep cfg s inp
  have h2 := framesOk_intervalStep cfg (layerStep cfg s inp).1 inp
  have h3 := framesOk_pauseDetectStep cfg
    (intervalStep cfg (layerStep cfg s inp).1 inp).1 inp
  obtain ⟨k, hf, hc⟩ := framesOk_comp (framesOk_comp h1 h2) h3
  refine ⟨k, ?_, hc⟩
  show (clearPausedStep _ inp).frame = _
  rw [clearPausedStep_frame]
  exact hf

theorem framesOk_loopStep (cfg : Config) (ps : Nat) (s : LapseState)
    (inp : TickInput) (ps1 : Nat) (s1 : LapseState) (e1 : List Event)
    (h : loopStep cfg ps s inp = StepResult.cont ps1 s1 e1) :
    FramesOk s (s1, e1) := by
  unfold loopStep at h
  split_ifs at h <;> cases h <;>
    first
      | exact framesOk_oneInterval cfg s inp
      | exact ⟨0, rfl, rfl⟩

theorem runTrace_frames :
    ∀ (evts : List TickEvt) (cfg : Config) (ps : Nat) (s : LapseState),
      ∃ k, captureFrames (runTrace cfg ps s evts) = natRange (s.frame + 1) k := by
  intro evts
  induction evts with
  | nil => intro cfg ps s; exact ⟨0, rfl⟩
  | cons e rest ih =>
    intro cfg ps s
    cases e with
    | sigint => exact ⟨0, rfl⟩
    | fail => exact ⟨0, rfl⟩
    | tick inp =>
      cases hls : loopStep cfg ps s inp with
      | finish n =>
        refine ⟨0, ?_⟩
        simp [runTrace, hls]
        rfl
      | cont ps1 s1 e1 =>
        obtain ⟨k1, hf1, hc1⟩ := framesOk_loopStep cfg ps s inp ps1 s1 e1 hls
        obtain ⟨k2, hc2⟩ := ih cfg ps1 s1
        refine ⟨k1 + k2, ?_⟩
        simp only [runTrace, hls]
        rw [captureFrames_append, hc1, hc2, hf1,
          show s.frame + k1 + 1 = (s.frame + 1) + k1 by omega]
        exact natRange_append k1 (s.frame + 1) k2

theorem fileName_lt (m n : Nat) (hmn : m < n) (hn : n < 10 ^ 8) :
    fileName m < fileName n := by
  have hm : m < 10 ^ 8 := Nat.lt_trans hmn hn
  rw [String.lt_iff_toList_lt]
  show List.Lex (· < ·) (fileName m).data (fileName n).data
  show List.Lex (· < ·)
    ("/tmp/DuetLapse/IMG".data ++ (pad8 m).map digitChar ++ ".jpeg".data)
    ("/tmp/DuetLapse/IMG".data ++ (pad8 n).map digitChar ++ ".jpeg".data)
  rw [List.append_assoc, List.append_assoc]
  apply List.Lex.append_left
  apply lex_append_of_lex
  · simp only [List.length_map, pad8_length m hm, pad8_length n hn]
  · exact (lex_digits (pad8 m) (pad8 n)
      (by rw [pad8_length m hm, pad8_length n hn])
      (pad8_lt_ten m) (pad8_lt_ten n)).2
      (by rw [pad8_val, pad8_val]; exact hmn)

/-- C6: the lifecycle phase (0 = AwaitingPrint, 1 = Printing, 2 = Finished)
never regresses on any tick; Printing is entered from AwaitingPrint exactly
when the status reads processing, Finished from Printing exactly when it
reads idle; and state 2 is terminal: its next iteration runs `postProcess`
(video assembly) and exits the process with code 0. -/
theorem c6_lifecycle_forward :
    ∀ (cfg : Config) (ps : Nat) (s : LapseState) (inp : TickInput),
      ps ≤ phaseOf (loopStep cfg ps s inp) ∧
      phaseOf (loopStep cfg 0 s inp) =
        (if inp.status = PStatus.processing then 1 else 0) ∧
      phaseOf (loopStep cfg 1 s inp) =
        (if inp.status = PStatus.idle then 2 else 1) ∧
      loopStep cfg 2 s inp = StepResult.finish s.frame ∧
      runOut cfg 2 s [TickEvt.tick inp] = RunOutcome.assembled s.frame 0 := by
  intro cfg ps s inp
  refine ⟨?_, rfl, rfl, rfl, rfl⟩
  unfold loopStep
  split_ifs <;> simp only [phaseOf] <;> omega

/-- C7 (amended): when a printer call raises during an iteration, the loop
exits at once — the remaining iterations are never run — and the process
dies without invoking `postProcess`, so no video assembly is attempted (only
`KeyboardInterrupt` is caught at line 413). -/
theorem c7_fail_no_assembly (cfg : Config) (ps : Nat) (s : LapseState)
    (rest : List TickEvt) :
    runOut cfg ps s (TickEvt.fail :: rest) = RunOutcome.crashed s.frame ∧
    assembleInvoked (runOut cfg ps s (TickEvt.fail :: rest)) = false :=
  ⟨rfl, rfl⟩

/-- C7 counterexample: a printer-call failure while printing with 3 frames
captured crashes the run without any video assembly, refuting the claim that
best-effort assembly is attempted. -/
theorem c7_fail_counterexample :
    runOut cfgLayer 1 (LapseState.mk (-1) 3 0 false) [TickEvt.fail] =
      RunOutcome.crashed 3 ∧
    assembleInvoked
      (runOut cfgLayer 1 (LapseState.mk (-1) 3 0 false) [TickEvt.fail]) =
      false :=
  ⟨rfl, rfl⟩

/-- C8: `-camera dslr` is accepted by argparse, yet the startup check (line
142) tests the transposed spelling `'dlsr' in camera` and therefore does not
exit with code 2; the capture dispatch in `onePhoto` then matches none of its
four camera branches, leaving `cmd` unassigned, so the first capture raises
`NameError` mid-run instead.  The other two precondition checks do fire. -/
theorem c8_dslr_passes_startup :
    "dslr" ∈ cameraChoices ∧
    initCameraExit2 "dslr" = false ∧
    onePhotoCmdDefined "dslr" = false ∧
    invalidPauseDetectCombo "yes" "pause" = true ∧
    invalidMoveheadCombo (1, 2) "no" "layer" = true := by
  refine ⟨?_, ?_, ?_, ?_, ?_⟩ <;> decide

/-- C10: with layer trigger mode active and the initial sentinel `zo = -1`,
the first tick captures a photo iff its layer reading differs from `-1`: a
first reading of exactly `-1` is indistinguishable from the unset marker and
does not fire. -/
theorem c10_layer_sentinel (z : Int) :
    (oneInterval cfgLayer (initState 0) (mkLayerInput z)).2 =
      (if z = -1 then [] else [Event.capture 1 true]) := by
  by_cases hz : z = -1
  · subst hz
    decide
  · simp [oneInterval, layerStep, intervalStep, pauseDetectStep,
      clearPausedStep, checkForcePause, onePhoto, unPause, cfgLayer,
      mkLayerInput, initState, hz]

/-- C1: with `-pause yes -detect layer` and no `-movehead` target, a layer
trigger issues exactly pause (`M25`), sync (`M400`), one capture — and never
a resume (`M24`): `unPause` is only called from the pause-detect branch
(line 332), which is unreachable when `-pause yes` is configured, so the
claimed trailing resume does not happen and the printer stays paused
(`alreadyPaused` remains set while the status keeps reporting paused). -/
theorem c1_force_pause_no_resume :
    (oneInterval cfgForce (initState 0) inpForce).2 =
      [Event.pause, Event.sync, Event.capture 1 true] ∧
    Event.resume ∉ (oneInterval cfgForce (initState 0) inpForce).2 ∧
    (oneInterval cfgForce (initState 0) inpForce).1.alreadyPaused = true := by
  refine ⟨?_, ?_, ?_⟩ <;> decide

/-- C4 (amended): for any configuration with interval seconds S > 0, any
state and any tick, the interval trigger fires iff the elapsed time since the
last photo is strictly greater than S (not ≥ S), independently of the trigger
mode; when it fires it performs exactly one capture and records the capture
time, so the gap from the previous photo is always strictly above S and in
particular never less than S. -/
theorem c4_interval_strict (cfg : Config) (s : LapseState) (inp : TickInput)
    (hS : 0 < cfg.seconds) :
    ((intervalStep cfg s inp).2 ≠ [] ↔
      cfg.seconds < inp.now - s.timePriorPhoto) ∧
    ((intervalStep cfg s inp).2 ≠ [] →
      countCaptures (intervalStep cfg s inp).2 = 1 ∧
      (intervalStep cfg s inp).1.timePriorPhoto = inp.now) := by
  unfold intervalStep
  split_ifs with hc
  · constructor
    · constructor
      · intro _
        exact hc.2
      · intro _
        simp [onePhoto]
    · intro _
      constructor
      · show countCaptures ((checkForcePause cfg s).2 ++
          [Event.capture ((checkForcePause cfg s).1.frame + 1) inp.capOk]) = 1
        unfold countCaptures
        rw [captureFrames_append, checkForcePause_capturesNil]
        rfl
      · rfl
  · constructor
    · constructor
      · intro h
        exact absurd rfl h
      · intro hlt
        exact absurd ⟨by intro h0; rw [h0] at hS; exact lt_irrefl 0 hS, hlt⟩ hc
    · intro h
      exact absurd rfl h

/-- C4 counterexample: with `-seconds 5`, a tick at exactly 5 elapsed time
units since the last photo does not fire (the source tests `seconds < elap`
strictly, line 323), refuting "fires when elapsed ≥ S". -/
theorem c4_boundary_counterexample :
    (oneInterval cfgInt (initState 0) inpInt5).2 = [] := by
  simp [oneInterval, layerStep, intervalStep, pauseDetectStep,
    clearPausedStep, cfgInt, inpInt5, initState]

/-- C4 witness: the amended interval law instantiated at `-seconds 5`, the
initial state and a tick at wall clock 6. -/
theorem c4_interval_strict_witness :
    (0 : ℚ) < cfgInt.seconds ∧
    (((intervalStep cfgInt (initState 0) inpInt).2 ≠ [] ↔
        cfgInt.seconds < inpInt.now - (initState 0).timePriorPhoto) ∧
      ((intervalStep cfgInt (initState 0) inpInt).2 ≠ [] →
        countCaptures (intervalStep cfgInt (initState 0) inpInt).2 = 1 ∧
        (intervalStep cfgInt (initState 0) inpInt).1.timePriorPhoto =
          inpInt.now)) :=
  ⟨by decide, c4_interval_strict cfgInt (initState 0) inpInt (by decide)⟩

theorem oneInterval_layerCfg (s : LapseState) (z : Int) :
    oneInterval cfgLayer s (mkLayerInput z) =
      (if z = s.zo then (LapseState.mk z s.frame s.timePriorPhoto false, [])
       else (LapseState.mk z (s.frame + 1) 0 false,
         [Event.capture (s.frame + 1) true])) := by
  by_cases hz : z = s.zo <;> by_cases hap : s.alreadyPaused <;>
    simp [oneInterval, layerStep, intervalStep, pauseDetectStep,
      clearPausedStep, checkForcePause, onePhoto, unPause, cfgLayer,
      mkLayerInput, hz, hap]

/-- C3 (amended): with layer trigger mode active (and the other triggers
off), a run over any sequence of layer readings captures on exactly the
ticks whose reading differs from the immediately preceding one, where the
first tick's "previous" value is the current `zo` — initially the sentinel
`-1`, so a first reading of `-1` does not fire; and `zo` is updated to the
new reading on every tick, so it always holds the last reading seen. -/
theorem c3_layer_refinement :
    ∀ (zs : List Int) (s : LapseState),
      layerFireFlags cfgLayer s zs = specLayerFires s.zo zs ∧
      (evalRun cfgLayer s (zs.map mkLayerInput)).1.zo = lastOr s.zo zs := by
  intro zs
  induction zs with
  | nil => intro s; exact ⟨rfl, rfl⟩
  | cons z zs ih =>
    intro s
    constructor
    · show (!(oneInterval cfgLayer s (mkLayerInput z)).2.isEmpty) ::
        layerFireFlags cfgLayer (oneInterval cfgLayer s (mkLayerInput z)).1
          zs = decide (z ≠ s.zo) :: specLayerFires z zs
      rw [oneInterval_layerCfg s z]
      by_cases hz : z = s.zo
      · subst hz
        rw [if_pos rfl]
        congr 1
        · simp
        · exact (ih (LapseState.mk s.zo s.frame s.timePriorPhoto false)).1
      · rw [if_neg hz]
        congr 1
        · simp [hz]
        · exact (ih (LapseState.mk z (s.frame + 1) 0 false)).1
    · show (evalRun cfgLayer s
        (mkLayerInput z :: zs.map mkLayerInput)).1.zo = lastOr z zs
      simp only [evalRun]
      rw [oneInterval_layerCfg s z]
      by_cases hz : z = s.zo
      · rw [if_pos hz]
        have hzz := (ih (LapseState.mk z s.frame s.timePriorPhoto false)).2
        subst hz
        exact hzz
      · rw [if_neg hz]
        exact (ih (LapseState.mk z (s.frame + 1) 0 false)).2

/-- C3 counterexample: the claim's parenthetical "the first reading counts
as differing from the unset initial value" predicts a capture on a first
reading of `-1`, but the run captures nothing there (the sentinel `zo = -1`
is indistinguishable from a reading of `-1`). -/
theorem c3_first_reading_refuted :
    layerFireFlags cfgLayer (initState 0) [-1] = [false] ∧
    countCaptures (oneInterval cfgLayer (initState 0)
      (mkLayerInput (-1))).2 = 0 := by
  refine ⟨?_, ?_⟩ <;> decide

theorem oneInterval_pd_first (s : LapseState) (i : TickInput)
    (hap : s.alreadyPaused = false) (h2 : i.status2 = PStatus.paused)
    (h3 : i.status3 = PStatus.paused) :
    oneInterval cfgPauseDetect s i =
      (LapseState.mk s.zo (s.frame + 1) i.now true,
       [Event.capture (s.frame + 1) i.capOk, Event.resume]) := by
  simp [oneInterval, layerStep, intervalStep, pauseDetectStep,
    clearPausedStep, onePhoto, unPause, cfgPauseDetect, hap, h2, h3]

theorem oneInterval_pd_noop (s : LapseState) (i : TickInput)
    (hap : s.alreadyPaused = true) (h3 : i.status3 = PStatus.paused) :
    oneInterval cfgPauseDetect s i = (s, []) := by
  simp [oneInterval, layerStep, intervalStep, pauseDetectStep,
    clearPausedStep, cfgPauseDetect, hap, h3]

theorem oneInterval_pd_final (s : LapseState) (f : TickInput)
    (hap : s.alreadyPaused = true) (hf2 : f.status2 ≠ PStatus.paused)
    (hf3 : f.status3 ≠ PStatus.paused) :
    oneInterval cfgPauseDetect s f =
      (LapseState.mk s.zo s.frame s.timePriorPhoto false, []) := by
  simp [oneInterval, layerStep, intervalStep, pauseDetectStep,
    clearPausedStep, cfgPauseDetect, hap, hf2, hf3]

theorem c2_aux :
    ∀ (ins : List TickInput) (s : LapseState), s.alreadyPaused = true →
      (∀ i ∈ ins, pausedTick i) →
      ∀ f : TickInput, f.status2 ≠ PStatus.paused →
        f.status3 ≠ PStatus.paused →
        evalRun cfgPauseDetect s (ins ++ [f]) =
          (LapseState.mk s.zo s.frame s.timePriorPhoto false, []) := by
  intro ins
  induction ins with
  | nil =>
    intro s hap _ f hf2 hf3
    show evalRun cfgPauseDetect s [f] = _
    simp only [evalRun]
    rw [oneInterval_pd_final s f hap hf2 hf3]
    rfl
  | cons i ins ih =>
    intro s hap hins f hf2 hf3
    have hi := hins i (List.mem_cons_self i ins)
    show evalRun cfgPauseDetect s (i :: (ins ++ [f])) = _
    simp only [evalRun]
    rw [oneInterval_pd_noop s i hap hi.2]
    dsimp only
    rw [ih s hap (fun j hj => hins j (List.mem_cons_of_mem i hj)) f hf2 hf3]
    rfl

/-- C2: with `-detect pause` (interval trigger off), for any episode —
`alreadyPaused` re-armed, one or more consecutive ticks observing paused,
then a tick observing non-paused — exactly one capture and exactly one
resume (`M24`) are issued, however many ticks observed the paused status,
and `alreadyPaused` is cleared by the non-paused tick, re-arming the
trigger. -/
theorem c2_pause_episode (s : LapseState) (hap : s.alreadyPaused = false)
    (i0 : TickInput) (h0 : pausedTick i0) (ins : List TickInput)
    (hins : ∀ i ∈ ins, pausedTick i) (f : TickInput)
    (hf2 : f.status2 ≠ PStatus.paused) (hf3 : f.status3 ≠ PStatus.paused) :
    countCaptures (evalRun cfgPauseDetect s (i0 :: ins ++ [f])).2 = 1 ∧
    countResumes (evalRun cfgPauseDetect s (i0 :: ins ++ [f])).2 = 1 ∧
    (evalRun cfgPauseDetect s (i0 :: ins ++ [f])).1.alreadyPaused = false ∧
    (evalRun cfgPauseDetect s (i0 :: ins ++ [f])).1.frame = s.frame + 1 := by
  have h1 := oneInterval_pd_first s i0 hap h0.1 h0.2
  have h2 := c2_aux ins (LapseState.mk s.zo (s.frame + 1) i0.now true) rfl
    hins f hf2 hf3
  simp only [evalRun]
  rw [h1]
  have h3 : evalRun cfgPauseDetect
      ((LapseState.mk s.zo (s.frame + 1) i0.now true,
        [Event.capture (s.frame + 1) i0.capOk, Event.resume]) :
          LapseState × List Event).1 (List.append ins [f]) =
      (LapseState.mk s.zo (s.frame + 1) i0.now false, []) := h2
  rw [h3]
  exact ⟨rfl, rfl, rfl, rfl⟩

/-- C2 witness: a two-tick paused episode followed by a non-paused tick,
from the initial state. -/
theorem c2_pause_episode_witness :
    (initState 0).alreadyPaused = false ∧ pausedTick inpPaused ∧
    (∀ i ∈ [inpPaused], pausedTick i) ∧
    inpUnpaused.status2 ≠ PStatus.paused ∧
    inpUnpaused.status3 ≠ PStatus.paused ∧
    (countCaptures (evalRun cfgPauseDetect (initState 0)
        (inpPaused :: [inpPaused] ++ [inpUnpaused])).2 = 1 ∧
      countResumes (evalRun cfgPauseDetect (initState 0)
        (inpPaused :: [inpPaused] ++ [inpUnpaused])).2 = 1 ∧
      (evalRun cfgPauseDetect (initState 0)
        (inpPaused :: [inpPaused] ++ [inpUnpaused])).1.alreadyPaused =
        false ∧
      (evalRun cfgPauseDetect (initState 0)
        (inpPaused :: [inpPaused] ++ [inpUnpaused])).1.frame =
        (initState 0).frame + 1) :=
  ⟨rfl, by decide, by decide, by decide, by decide,
    c2_pause_episode (initState 0) rfl inpPaused (by decide) [inpPaused]
      (by decide) inpUnpaused (by decide) (by decide)⟩

/-- C9: a SIGINT delivered at any iteration boundary of a still-running loop
routes to the finish path: `postProcess` assembles the video over the frames
captured so far — the run function returns at that point, so assembly
happens exactly once and any later events are never consumed — and the
process exits with code 0. -/
theorem c9_sigint_assembles :
    ∀ (evts : List TickEvt) (cfg : Config) (ps : Nat) (s : LapseState)
      (ps1 : Nat) (s1 : LapseState) (rest : List TickEvt),
      runOut cfg ps s evts = RunOutcome.running ps1 s1 →
      runOut cfg ps s (evts ++ TickEvt.sigint :: rest) =
        RunOutcome.assembled s1.frame 0 := by
  intro evts
  induction evts with
  | nil =>
    intro cfg ps s ps1 s1 rest h
    have h1 : RunOutcome.running ps s = RunOutcome.running ps1 s1 := h
    cases h1
    rfl
  | cons e evts ih =>
    intro cfg ps s ps1 s1 rest h
    cases e with
    | sigint => simp [runOut] at h
    | fail => simp [runOut] at h
    | tick inp =>
      rw [List.cons_append]
      cases hls : loopStep cfg ps s inp with
      | finish n =>
        simp [runOut, hls] at h
      | cont ps2 s2 e2 =>
        simp only [runOut, hls] at h ⊢
        exact ih cfg ps2 s2 ps1 s1 rest h

/-- C9 witness: one processing tick (moving the lifecycle to Printing), then
a SIGINT: the video is assembled over the frames so far and the exit code
is 0. -/
theorem c9_sigint_assembles_witness :
    runOut cfg9 0 (initState 0) [TickEvt.tick inp9] =
      RunOutcome.running 1 (initState 0) ∧
    runOut cfg9 0 (initState 0)
        ([TickEvt.tick inp9] ++ TickEvt.sigint :: []) =
      RunOutcome.assembled (initState 0).frame 0 :=
  ⟨by decide,
    c9_sigint_assembles [TickEvt.tick inp9] cfg9 0 (initState 0) 1
      (initState 0) [] (by decide)⟩

/-- C5 (amended): the frame counter starts at 0 and every capture invocation
increments it by exactly 1 and emits exactly the capture of the new slot
(whether or not the external command succeeds); over any whole run the
captured slot numbers are exactly 1, 2, …, k — strictly increasing, no
duplicates, no gaps; and slot filenames are zero-padded to width 8, so
lexicographic filename order agrees with capture order for all slot numbers
below 10^8 (at 10^8 the format overflows its fixed width and the agreement
fails, hence the bound). -/
theorem c5_frames (cfg : Config) (t0 : ℚ) (evts : List TickEvt)
    (s : LapseState) (now : ℚ) (ok : Bool) (m n : Nat)
    (hmn : m < n) (hn : n < 10 ^ 8) :
    (initState t0).frame = 0 ∧
    ((onePhoto s now ok).1.frame = s.frame + 1 ∧
      (onePhoto s now ok).2 = [Event.capture (s.frame + 1) ok]) ∧
    (∃ k, captureFrames (runTrace cfg 0 (initState t0) evts) = natRange 1 k ∧
      (captureFrames (runTrace cfg 0 (initState t0) evts)).Pairwise
        (· < ·)) ∧
    fileName m < fileName n := by
  refine ⟨rfl, ⟨rfl, rfl⟩, ?_, fileName_lt m n hmn hn⟩
  obtain ⟨k, hk⟩ := runTrace_frames evts cfg 0 (initState t0)
  refine ⟨k, hk, ?_⟩
  rw [hk]
  exact natRange_pairwise k _

/-- C5 witness: the amended frame law instantiated at slots 3 < 12 and an
empty run. -/
theorem c5_frames_witness :
    3 < 12 ∧ (12 : Nat) < 10 ^ 8 ∧
    ((initState 0).frame = 0 ∧
      ((onePhoto (initState 0) 0 false).1.frame = (initState 0).frame + 1 ∧
        (onePhoto (initState 0) 0 false).2 =
          [Event.capture ((initState 0).frame + 1) false]) ∧
      (∃ k, captureFrames (runTrace cfgLayer 0 (initState 0) []) =
          natRange 1 k ∧
        (captureFrames (runTrace cfgLayer 0 (initState 0) [])).Pairwise
          (· < ·)) ∧
      fileName 3 < fileName 12) :=
  ⟨by decide, by decide,
    c5_frames cfgLayer 0 [] (initState 0) 0 false 3 12 (by decide)
      (by decide)⟩

/-- C5 counterexample: at slot numbers 99999999 and 100000000 the
zero-padded format overflows its fixed width of 8, and lexicographic
filename order reverses capture order, refuting the unrestricted claim. -/
theorem c5_filename_order_refuted :
    99999999 < 100000000 ∧
    fileName 100000000 < fileName 99999999 ∧
    ¬ fileName 99999999 < fileName 100000000 := by
  refine ⟨by decide, ?_, ?_⟩
  · rw [String.lt_iff_toList_lt]
    show List.Lex (· < ·) (fileName 100000000).data (fileName 99999999).data
    decide
  · rw [String.lt_iff_toList_lt]
    show ¬ List.Lex (· < ·) (fileName 99999999).data
      (fileName 100000000).data
    decide
